import Mathlib

/-!
# Verification of the bakedbaker version-routing proxy

A shallow embedding, in Lean 4, of the core of the `bakedbaker` repository:

* `internal/versions` — the Instance Supervisor: discovery of embedded
  per-version agent-baker binaries (`extractBinaries`), parallel launch with an
  atomic port allocator (`spawnVersions`), and construction of the published
  version → address `Mapping` (`New`).
* `internal/http` — the Request Router: dual-format request resolution
  (`versionedRequest`), forwarding (`sendToAgentBaker`), and the endpoint
  handler shape (`bootstrapData`; the `latestConfig` and `distroConfig`
  handlers in the source are textually identical up to the payload type, so
  the one parametric definition covers all three).

Modelling conventions:

* Request/response byte sequences are modelled at the JSON level: a body is
  either empty (`len(body) == 0` in Go), structurally malformed (bytes that
  the JSON codec rejects, e.g. `"{"`), or a parsed JSON value.  This quotient
  is faithful because the Go code consults a body only through its length and
  through `json.Unmarshal`.
* The generic Go payload type `T` is a type parameter together with its codec
  (`decodeT`/`encodeT`), its zero value `zeroT` (Go's `var emptyT T`), and
  `isZero` (Go's `reflect.ValueOf(x).IsZero()`).
* Fallible Go functions returning `(..., error)` become `Except String ...`;
  `New`, which returns both a `Mapping` and an `error`, becomes a pair with an
  `Option String` error component.
* Concurrency of the launch phase is captured by an allocation-order function
  `alloc`: the atomic counter hands the `k`-th allocation (in real-time order)
  the value `8080 + k`, and `alloc i` is the allocation rank that the launch
  of entry `i` obtained under the interleaving at hand.  Any interleaving
  yields an injective `alloc`.
* Side-effecting steps (writing the binary, starting the subprocess, the
  outbound HTTP call) are parameterised by their outcomes
  (`writeOk`/`startOk`/`backend`), so both the success and the failure paths
  of the source are represented.
-/

namespace BakedBaker

namespace versions

/-- `type Version string` from `internal/versions`. -/
abbrev Version := String

/-- `var Latest = Version("latest")`. -/
def Latest : Version := "latest"

/-- `func (v Version) validate() error`.  The source body is only the comment
`// Some detection logic here` followed by `return nil`: it accepts every
string.  `none` models the `nil` error. -/
def Version.validate (_v : Version) : Option String := none

/-- Lookup in a Go `map[Version]string`: a missing key yields the zero value
`""` (this is exactly what `m.versions[v]` does in Go). -/
def mapGet (m : List (Version × String)) (v : Version) : String :=
  match m.find? (fun kv => kv.1 == v) with
  | some kv => kv.2
  | none => ""

/-- Assignment `m[k] = val` in a Go map, on the association-list model:
replace the existing binding if present, otherwise append. -/
def mapSet (m : List (Version × String)) (k : Version) (val : String) :
    List (Version × String) :=
  if m.any (fun kv => kv.1 == k) then
    m.map (fun kv => if kv.1 == k then (k, val) else kv)
  else
    m ++ [(k, val)]

/-- `type Mapping struct { versions map[Version]string }`. -/
structure Mapping where
  versions : List (Version × String)

/-- `func (m Mapping) Base(v Version) string`. -/
def Mapping.Base (m : Mapping) (v : Version) : String :=
  mapGet m.versions v

/-- `type versionPath struct { version Version; bin []byte; addr string }`.
The binary's bytes are modelled as a list of byte values. -/
structure versionPath where
  version : Version
  bin : List Nat
  addr : String
deriving DecidableEq

/-- One directory entry as returned by `fs.ReadDir` (`Name()` / `IsDir()`). -/
structure DirEntry where
  name : String
  isDir : Bool
deriving DecidableEq

/-- The embedded asset bundle (`//go:embed binaries`), seen through the two
operations the source uses: `ReadDir(".")` (`entries`; `none` models a read
error) and `ReadFile` (`files` is the path → content table; a missing path
models a read error).  The source's `rdfs` parameter and the package-level
`binariesFS` denote this same embedded bundle. -/
structure BinFS where
  entries : Option (List DirEntry)
  files : List (String × List Nat)

/-- `ReadFile` on the bundle. -/
def BinFS.readFile (fs : BinFS) (p : String) : Option (List Nat) :=
  match fs.files.find? (fun kv => kv.1 == p) with
  | some kv => some kv.2
  | none => none

/-- The loop body of `extractBinaries`: walk the directory entries in order,
skip non-directories, validate each name as a `Version`, and read the
`<name>/agentbaker` payload (`filepath.Join(fn.Name(), "agentbaker")`),
stopping at the first failure exactly as the source's early `return`s do. -/
def extractGo (rdfs : BinFS) : List DirEntry → Except String (List versionPath)
  | [] => .ok []
  | fn :: rest =>
    if fn.isDir = false then
      extractGo rdfs rest
    else
      let ver : Version := fn.name
      match Version.validate ver with
      | some e =>
        .error ("embed filesystem had version that did not validate: " ++ e)
      | none =>
        let binPath := fn.name ++ "/agentbaker"
        match rdfs.readFile binPath with
        | none =>
          .error ("could not read agentbaker file for version(" ++ ver ++ ")")
        | some content =>
          match extractGo rdfs rest with
          | .error e => .error e
          | .ok tail =>
            .ok ({ version := ver, bin := content, addr := "" } :: tail)

/-- `func extractBinaries(rdfs binFS) ([]versionPath, error)`. -/
def extractBinaries (rdfs : BinFS) : Except String (List versionPath) :=
  match rdfs.entries with
  | none => .error "could not read the versions directory"
  | some entries => extractGo rdfs entries

/-- Model of `fmt.Sprintf("%d", n)` for a natural number: the usual decimal
rendering, written (like the core library's renderer) with a structural fuel
so that it is total and evaluates by kernel reduction. -/
def digitCh (d : Nat) : Char :=
  if d = 0 then '0' else if d = 1 then '1' else if d = 2 then '2'
  else if d = 3 then '3' else if d = 4 then '4' else if d = 5 then '5'
  else if d = 6 then '6' else if d = 7 then '7' else if d = 8 then '8'
  else if d = 9 then '9' else '*'

/-- Fuelled digit accumulation: the decimal digits of `n`, most significant
first, in front of `acc`.  `fuel > n` suffices for full evaluation. -/
def natDecCore : Nat → Nat → List Char → List Char
  | 0, _, acc => acc
  | fuel + 1, n, acc =>
    if n < 10 then digitCh n :: acc
    else natDecCore fuel (n / 10) (digitCh (n % 10) :: acc)

/-- Decimal rendering of a natural number (model of `%d`). -/
def natDecStr (n : Nat) : String :=
  String.mk (natDecCore (n + 1) n [])

/-- The port counter of `spawnVersions`: `ports` is stored at `8080`, the
`k`-th `ports.Add(1)` (counting from zero, in allocation order) returns
`8080 + (k + 1)`, and the source computes `port := ports.Add(1) - 1`. -/
def portAlloc (k : Nat) : Nat :=
  (8080 + (k + 1)) - 1

/-- The base address recorded for an instance:
`fmt.Sprintf("http://localhost:%d", port)`. -/
def addrOf (port : Nat) : String :=
  "http://localhost:" ++ natDecStr port

/-- The body of one launch goroutine in `spawnVersions`, given the port its
`ports.Add(1)` obtained: write the binary to `filepath.Join(tmpdir, version)`
(the source's `p` is this path `fp`), record the address, and start
`exec.Command(fp, "-port", vp.addr)`.  The started command (program path and
argument list) is returned alongside the updated `versionPath` so that the
launch contract is observable.  `writeOk`/`startOk` give the outcomes of the
two side-effecting steps. -/
def launchOne (tmpdir : String) (writeOk startOk : versionPath → Bool)
    (port : Nat) (vp : versionPath) :
    Except String (versionPath × (String × List String)) :=
  let fp := tmpdir ++ "/" ++ vp.version
  if writeOk vp = false then
    .error ("could not write agentbaker binary file(" ++ vp.version ++ ")")
  else
    let addr := addrOf port
    if startOk vp = false then
      .error ("could not start agentbaker binary(" ++ vp.version ++ ")")
    else
      .ok ({ vp with addr := addr }, (fp, ["-port", addr]))

/-- The launch loop: entry `i` (in slice order) launches with the port of its
allocation rank `alloc i`.  `wait.Group.Wait` reports an error iff some
launch failed; the model surfaces the first failing entry's error.  (A launch
that fails before its `ports.Add(1)` never consumes a rank in the source;
ranks of failed entries are irrelevant because the whole result is then an
error.) -/
def spawnGo (tmpdir : String) (alloc : Nat → Nat)
    (writeOk startOk : versionPath → Bool) :
    Nat → List versionPath → Except String (List versionPath)
  | _, [] => .ok []
  | i, vp :: rest =>
    match launchOne tmpdir writeOk startOk (portAlloc (alloc i)) vp with
    | .error e => .error e
    | .ok (vp2, _) =>
      match spawnGo tmpdir alloc writeOk startOk (i + 1) rest with
      | .error e => .error e
      | .ok tail => .ok (vp2 :: tail)

/-- `func spawnVersions(verPaths []versionPath) error`, together with the
in-place update of `verPaths`: on success the returned list carries the
recorded addresses (`verPaths[i] = vp`). -/
def spawnVersions (tmpdir : String) (alloc : Nat → Nat)
    (writeOk startOk : versionPath → Bool) (verPaths : List versionPath) :
    Except String (List versionPath) :=
  spawnGo tmpdir alloc writeOk startOk 0 verPaths

/-- The directory names that `extractBinaries` accepts from a listing: the
names of the entries that are directories, in listing order. -/
def dirNames : List DirEntry → List String
  | [] => []
  | d :: rest => if d.isDir then d.name :: dirNames rest else dirNames rest

/-- The entry list that a fully successful launch phase produces: entry `i`
keeps its version and binary and records the address of the port of its
allocation rank `alloc i`. -/
def launched (alloc : Nat → Nat) : Nat → List versionPath → List versionPath
  | _, [] => []
  | i, vp :: rest =>
    { vp with addr := addrOf (portAlloc (alloc i)) } :: launched alloc (i + 1) rest

/-- The numeric value of a decimal digit character (inverse of `digitCh`). -/
def chVal (c : Char) : Nat := c.toNat - 48

/-- Read a digit string back into a number, starting from `a` (left inverse
of the decimal rendering, used to prove `natDecStr` injective). -/
def valAux (a : Nat) (cs : List Char) : Nat :=
  cs.foldl (fun x c => x * 10 + chVal c) a

/-- `func New() (Mapping, error)`: extract, spawn, then fold the launched
entries into the map with `m.versions[vp.version] = vp.addr`.  The Go
function returns the pair `(Mapping{}, err)` on failure, so the model returns
`Mapping × Option String` rather than an `Except`. -/
def New (fs : BinFS) (tmpdir : String) (alloc : Nat → Nat)
    (writeOk startOk : versionPath → Bool) : Mapping × Option String :=
  match extractBinaries fs with
  | .error e => (⟨[]⟩, some e)
  | .ok verPaths =>
    match spawnVersions tmpdir alloc writeOk startOk verPaths with
    | .error e => (⟨[]⟩, some e)
    | .ok vps =>
      (⟨vps.foldl (fun m vp => mapSet m vp.version vp.addr) []⟩, none)

end versions

/-- `addr = flag.String("addr", "localhost:8080", ...)` in `bakedbaker.go`:
the router's default listen address. -/
def defaultAddr : String := "localhost:8080"

namespace http

/-- A parsed JSON value (the `go-json-experiment/json` data the router's
bodies carry).  Numbers are modelled as integers; none of the router's JSON
traffic that the claims touch uses fractional numbers. -/
inductive Json where
  | null
  | bool (b : Bool)
  | num (n : Int)
  | str (s : String)
  | arr (elems : List Json)
  | obj (members : List (String × Json))

/-- Object member lookup by field name (the codec matches Go struct field
names such as `"ABVersion"` and `"Req"` against the object's member names;
unknown members are ignored, as the codec does by default). -/
def lookupField (name : String) : List (String × Json) → Option Json
  | [] => none
  | (k, v) :: rest => if k == name then some v else lookupField name rest

/-- `type VersionedReq[T any] struct { ABVersion versions.Version; Req T }`. -/
structure VersionedReq (T : Type) where
  ABVersion : versions.Version
  Req : T

/-- Decoding a JSON value into the `ABVersion versions.Version` field: only a
JSON string is accepted (`null` yields the zero value `""`). -/
def decodeVersionString : Json → Option String
  | .str s => some s
  | .null => some ""
  | _ => none

/-- `json.Unmarshal(body, &versioned)` at the JSON level: a struct decodes
from a JSON object; a missing member leaves the field at its zero value
(`""` for `ABVersion`, `zeroT` for `Req`); a present member must decode
(`decodeT` for the generic inner type), else the whole unmarshal errors. -/
def decodeVersionedReq (T : Type) (decodeT : Json → Option T) (zeroT : T) :
    Json → Option (VersionedReq T)
  | .obj members =>
    match (match lookupField "ABVersion" members with
           | none => some ""
           | some j => decodeVersionString j) with
    | none => none
    | some ab =>
      match (match lookupField "Req" members with
             | none => some zeroT
             | some j => decodeT j) with
      | none => none
      | some req => some ⟨ab, req⟩
  | _ => none

/-- `json.Marshal` of a `VersionedReq[T]` value: the struct's fields in
declaration order. -/
def encodeVersionedReq (T : Type) (encodeT : T → Json) (v : VersionedReq T) :
    Json :=
  .obj [("ABVersion", .str v.ABVersion), ("Req", encodeT v.Req)]

/-- A request body, quotiented by the only observations the source makes of
it: `len(body) == 0`, and the JSON value it parses to (if any).  `malformed`
covers byte sequences such as `"{"` that the JSON codec rejects outright. -/
inductive Body where
  | empty
  | malformed
  | json (j : Json)

/-- `func versionedRequest[T any](body []byte) (versions.Version, T, error)`.
`decodeT`/`zeroT`/`isZero` are the Go-supplied pieces of the generic type:
its codec, its `var emptyT T` zero value, and
`reflect.ValueOf(·).IsZero()`. -/
def versionedRequest (T : Type) (decodeT : Json → Option T) (zeroT : T)
    (isZero : T → Bool) : Body → Except String (versions.Version × T)
  | .empty => .error "empty body"
  | .malformed =>
    .error "could not unmarshal our the body content to VersionedReq"
  | .json j =>
    match decodeVersionedReq T decodeT zeroT j with
    | none => .error "could not unmarshal our the body content to VersionedReq"
    | some versioned =>
      if isZero versioned.Req then
        if versioned.ABVersion ≠ "" then
          .error "must provide .Req if .ABVersion is set"
        else
          match decodeT j with
          | none =>
            .error
              "could not unmarshal our the body content to GetNodeBootstrapDataRequest"
          | some config =>
            if isZero config then .error "must provide a valid request"
            else .ok (versions.Latest, config)
      else if versioned.ABVersion = "" then .error "must provide a version"
      else .ok (versioned.ABVersion, versioned.Req)

/-! ### Go `path.Join` / `path.Clean`

`sendToAgentBaker` builds its target URL with `path.Join(base, c.Path())`.
`path.Join` concatenates its arguments with `"/"` and applies `path.Clean`'s
lexical cleaning, which in particular collapses repeated slashes — including
the `"//"` of an `"http://..."` prefix. -/

/-- Split a character list on `'/'` (every separator produces a boundary, so
empty segments are preserved, as with `strings.Split`). -/
def splitSlashAux : List Char → List Char → List String
  | [], acc => [String.mk acc.reverse]
  | c :: rest, acc =>
    if c = '/' then String.mk acc.reverse :: splitSlashAux rest []
    else splitSlashAux rest (c :: acc)

/-- Split a string into its `'/'`-separated segments. -/
def splitSlash (s : String) : List String :=
  splitSlashAux s.data []

/-- One step of `path.Clean`'s segment processing (`acc` holds the output
segments in reverse): empty and `"."` segments are dropped, `".."` pops the
previous segment (or is kept at the head of a relative path, or dropped at
the root of a rooted one), and any other segment is kept. -/
def cleanStep (rooted : Bool) (acc : List String) (seg : String) :
    List String :=
  if seg = "" then acc
  else if seg = "." then acc
  else if seg = ".." then
    match acc with
    | [] => if rooted then [] else [".."]
    | top :: rest => if top = ".." then seg :: acc else rest
  else seg :: acc

/-- Go `path.Clean` (lexical cleaning; `""` cleans to `"."`). -/
def pathClean (p : String) : String :=
  if p = "" then "."
  else
    let rooted : Bool := match p.data with
      | '/' :: _ => true
      | _ => false
    let segs := ((splitSlash p).foldl (cleanStep rooted) []).reverse
    let joined := String.intercalate "/" segs
    if rooted then
      if joined = "" then "/" else "/" ++ joined
    else
      if joined = "" then "." else joined

/-- Go `path.Join` for two elements: for non-empty `a`,
`Clean(a + "/" + b)`. -/
def pathJoin (a b : String) : String :=
  if a = "" then
    if b = "" then "" else pathClean b
  else
    pathClean (a ++ "/" ++ b)

/-- The single outbound request that `sendToAgentBaker` issues:
`fiber.Post(path.Join(base, c.Path()))`, with the marshalled payload as body
and every inbound header visited and added onto it. -/
structure OutboundReq where
  url : String
  headers : List (String × String)
  body : Json

/-- The backend's answer to the outbound call, as `agent.Bytes()` returns it:
a status code, the response body (modelled opaquely as a string of bytes),
and the transport-error list. -/
structure AgentResp where
  status : Nat
  respBody : String
  errs : List String

/-- `func sendToAgentBaker(c *fiber.Ctx, base string, body []byte) error`.
The outbound request is returned alongside the handler's outcome so that
what was sent is observable; `backend` gives the backend's behaviour.  On
success the source relays the backend's body with `c.Send(body)`. -/
def sendToAgentBaker (pathStr : String) (inHeaders : List (String × String))
    (base : String) (body : Json) (backend : OutboundReq → AgentResp) :
    OutboundReq × Except String String :=
  let out : OutboundReq :=
    { url := pathJoin base pathStr, headers := inHeaders, body := body }
  let resp := backend out
  (out,
    if resp.errs ≠ [] then
      .error "could not send the request to the agent"
    else if resp.status ≠ 200 then
      .error ("the agent returned a non-200 status code: " ++
        versions.natDecStr resp.status)
    else .ok resp.respBody)

/-- `func (s *Server) bootstrapData(c *fiber.Ctx) error` (the `latestConfig`
and `distroConfig` handlers are the same function modulo the payload type,
which is a parameter here): resolve the body, look the version up in the
mapping (`""` means not found), re-marshal the resolved payload, and forward.
The first component records the outbound request, `none` when no outbound
call was made. -/
def bootstrapData (T : Type) (decodeT : Json → Option T) (zeroT : T)
    (isZero : T → Bool) (encodeT : T → Json) (m : versions.Mapping)
    (body : Body) (pathStr : String) (inHeaders : List (String × String))
    (backend : OutboundReq → AgentResp) :
    Option OutboundReq × Except String String :=
  match versionedRequest T decodeT zeroT isZero body with
  | .error e => (none, .error e)
  | .ok (ver, config) =>
    let base := m.Base ver
    if base = "" then
      (none,
       .error ("could not find agent baker version(" ++ ver ++
         ") in our mapping"))
    else
      let out := encodeT config
      let sent := sendToAgentBaker pathStr inHeaders base out backend
      (some sent.1, sent.2)

/-! ### A concrete payload type

The router's test exercises `versionedRequest` at the payload type
`Config struct { Type string; Data string }`; the same type instantiates the
generic theorems below.  (`Type` is reserved in Lean, so the field is named
`Typ`; the JSON member name is still `"Type"`.) -/

structure Config where
  Typ : String
  Data : String
deriving DecidableEq

/-- Decoding a JSON value into a Go `string` field. -/
def decodeStringField : Json → Option String
  | .str s => some s
  | .null => some ""
  | _ => none

/-- `json.Unmarshal` into `Config`. -/
def decodeConfig : Json → Option Config
  | .obj members =>
    match (match lookupField "Type" members with
           | none => some ""
           | some j => decodeStringField j) with
    | none => none
    | some t =>
      match (match lookupField "Data" members with
             | none => some ""
             | some j => decodeStringField j) with
      | none => none
      | some d => some ⟨t, d⟩
  | _ => none

/-- `json.Marshal` of a `Config`. -/
def encodeConfig (c : Config) : Json :=
  .obj [("Type", .str c.Typ), ("Data", .str c.Data)]

/-- `var emptyT Config`. -/
def configZero : Config := ⟨"", ""⟩

/-- `reflect.ValueOf(c).IsZero()` for `Config`. -/
def configIsZero (c : Config) : Bool :=
  c.Typ == "" && c.Data == ""

end http

/-! ## Helper lemmas -/

/-- Go map lookup on a key bound by no entry yields the zero value `""`. -/
theorem mapGet_not_found (v : versions.Version) :
    ∀ m : List (versions.Version × String), (∀ kv ∈ m, kv.1 ≠ v) →
      versions.mapGet m v = "" := by
  intro m
  induction m with
  | nil => intro _; rfl
  | cons kv rest ih =>
    intro h
    have h1 : (kv.1 == v) = false := beq_eq_false_iff_ne.mpr (h kv (by simp))
    have hstep : versions.mapGet (kv :: rest) v = versions.mapGet rest v := by
      simp [versions.mapGet, List.find?_cons, h1]
    rw [hstep]
    exact ih (fun kv' hm => h kv' (by simp [hm]))

/-- A decimal digit's character reads back to the digit. -/
theorem chVal_digitCh (d : Nat) (h : d < 10) :
    versions.chVal (versions.digitCh d) = d := by
  interval_cases d <;> rfl

/-- The digit accumulator appends: the rendered digits go in front of
`acc`. -/
theorem natDecCore_append (fuel : Nat) :
    ∀ (n : Nat) (acc : List Char),
      versions.natDecCore fuel n acc =
        versions.natDecCore fuel n [] ++ acc := by
  induction fuel with
  | zero => intro n acc; simp [versions.natDecCore]
  | succ f ih =>
    intro n acc
    simp only [versions.natDecCore]
    by_cases h : n < 10
    · simp [h]
    · simp only [if_neg h]
      rw [ih (n / 10) (versions.digitCh (n % 10) :: acc),
        ih (n / 10) [versions.digitCh (n % 10)]]
      simp

/-- With enough fuel, the fuel value is irrelevant. -/
theorem natDecCore_fuel : ∀ (n fuel fuel' : Nat), n < fuel → n < fuel' →
    versions.natDecCore fuel n [] = versions.natDecCore fuel' n [] := by
  intro n
  induction n using Nat.strong_induction_on with
  | _ n ih =>
    intro fuel fuel' hf hf'
    obtain ⟨f, rfl⟩ : ∃ f, fuel = f + 1 := ⟨fuel - 1, by omega⟩
    obtain ⟨f', rfl⟩ : ∃ f2, fuel' = f2 + 1 := ⟨fuel' - 1, by omega⟩
    simp only [versions.natDecCore]
    by_cases h : n < 10
    · simp [h]
    · simp only [if_neg h]
      rw [natDecCore_append f, natDecCore_append f']
      have hlt : n / 10 < n := Nat.div_lt_self (by omega) (by omega)
      rw [ih (n / 10) hlt f f' (by omega) (by omega)]

/-- Decimal round trip: reading the rendered digits back yields the
number. -/
theorem valAux_natDecCore (n : Nat) :
    versions.valAux 0 (versions.natDecCore (n + 1) n []) = n := by
  induction n using Nat.strong_induction_on with
  | _ n ih =>
    by_cases h : n < 10
    · simp only [versions.natDecCore, if_pos h]
      simp [versions.valAux, chVal_digitCh n h]
    · simp only [versions.natDecCore, if_neg h]
      rw [natDecCore_append]
      have hlt : n / 10 < n := Nat.div_lt_self (by omega) (by omega)
      rw [natDecCore_fuel (n / 10) n (n / 10 + 1) (by omega) (by omega)]
      have ih' := ih (n / 10) hlt
      simp only [versions.valAux] at ih' ⊢
      rw [List.foldl_append, ih']
      simp [chVal_digitCh (n % 10) (by omega)]
      omega

/-- The decimal rendering is injective. -/
theorem natDecStr_injective : Function.Injective versions.natDecStr := by
  intro a b h
  have hdata : versions.natDecCore (a + 1) a [] =
      versions.natDecCore (b + 1) b [] := by
    simpa [versions.natDecStr] using congrArg String.data h
  have hval := congrArg (versions.valAux 0) hdata
  rwa [valAux_natDecCore, valAux_natDecCore] at hval

/-- Instance base addresses with different ports differ. -/
theorem addrOf_injective : Function.Injective versions.addrOf := by
  intro a b h
  have hdata := congrArg String.data h
  simp only [versions.addrOf, String.data_append] at hdata
  exact natDecStr_injective (String.ext (List.append_cancel_left hdata))

/-- Discovery succeeds when every directory's payload file is readable, and
extracts exactly the directory entries in listing order. -/
theorem extractGo_ok (fs : versions.BinFS) (bins : String → List Nat) :
    ∀ ds : List versions.DirEntry,
      (∀ d ∈ ds, d.isDir = true →
        fs.readFile (d.name ++ "/agentbaker") = some (bins d.name)) →
      versions.extractGo fs ds =
        .ok ((versions.dirNames ds).map (fun n => ⟨n, bins n, ""⟩)) := by
  intro ds
  induction ds with
  | nil => intro _; rfl
  | cons d rest ih =>
    intro h
    have hrest : ∀ d' ∈ rest, d'.isDir = true →
        fs.readFile (d'.name ++ "/agentbaker") = some (bins d'.name) :=
      fun d' hm hd => h d' (List.mem_cons_of_mem d hm) hd
    cases hd : d.isDir with
    | false => simp [versions.extractGo, versions.dirNames, hd, ih hrest]
    | true =>
      have hr := h d (by simp) hd
      simp [versions.extractGo, versions.dirNames, hd, hr, ih hrest,
        versions.Version.validate]

/-- An all-directories listing discovers exactly its names. -/
theorem dirNames_all_dirs :
    ∀ entries : List String,
      versions.dirNames (entries.map (fun n => ⟨n, true⟩)) = entries := by
  intro entries
  induction entries with
  | nil => rfl
  | cons n rest ih => simp [versions.dirNames, ih]

/-- A fully successful launch phase returns the entries with their addresses
recorded. -/
theorem spawnGo_ok (tmpdir : String) (alloc : Nat → Nat) :
    ∀ (l : List versions.versionPath) (i : Nat),
      versions.spawnGo tmpdir alloc (fun _ => true) (fun _ => true) i l =
        .ok (versions.launched alloc i l) := by
  intro l
  induction l with
  | nil => intro i; rfl
  | cons vp rest ih =>
    intro i
    simp [versions.spawnGo, versions.launchOne, versions.launched, ih (i + 1)]

/-- Launching never changes which versions are present, or their order. -/
theorem launched_map_version (alloc : Nat → Nat) :
    ∀ (l : List versions.versionPath) (i : Nat),
      (versions.launched alloc i l).map versions.versionPath.version =
        l.map versions.versionPath.version := by
  intro l
  induction l with
  | nil => intro i; rfl
  | cons vp rest ih => intro i; simp [versions.launched, ih (i + 1)]

/-- Launching preserves the number of entries. -/
theorem launched_length (alloc : Nat → Nat) :
    ∀ (l : List versions.versionPath) (i : Nat),
      (versions.launched alloc i l).length = l.length := by
  intro l
  induction l with
  | nil => intro i; rfl
  | cons vp rest ih => intro i; simp [versions.launched, ih (i + 1)]

/-- The addresses recorded by the launch phase are exactly the addresses of
the ports of the allocation ranks `i, i+1, ...`, in order. -/
theorem launched_map_addr (alloc : Nat → Nat) :
    ∀ (l : List versions.versionPath) (i : Nat),
      (versions.launched alloc i l).map versions.versionPath.addr =
        (List.range' i l.length).map
          (fun k => versions.addrOf (versions.portAlloc (alloc k))) := by
  intro l
  induction l with
  | nil => intro i; rfl
  | cons vp rest ih =>
    intro i
    simp [versions.launched, List.range'_succ, ih (i + 1)]

/-- Go map assignment of an absent key appends the binding. -/
theorem mapSet_not_mem (m : List (versions.Version × String))
    (k : versions.Version) (val : String) (h : ∀ kv ∈ m, kv.1 ≠ k) :
    versions.mapSet m k val = m ++ [(k, val)] := by
  have hany : m.any (fun kv => kv.1 == k) = false :=
    List.any_eq_false.mpr (fun kv hm => by simp [h kv hm])
  simp [versions.mapSet, hany]

/-- Go map assignment of a present key keeps the key list unchanged. -/
theorem mapSet_map_fst_replace (m : List (versions.Version × String))
    (k : versions.Version) (val : String)
    (h : m.any (fun kv => kv.1 == k) = true) :
    (versions.mapSet m k val).map Prod.fst = m.map Prod.fst := by
  simp only [versions.mapSet, if_pos h, List.map_map]
  apply List.map_congr_left
  intro kv _
  cases hk : (kv.1 == k) with
  | false => simp [hk, beq_eq_false_iff_ne.mp hk]
  | true => simp [hk, (eq_of_beq hk).symm]

/-- Key-set effect of a Go map assignment. -/
theorem mapSet_mem_fst (m : List (versions.Version × String))
    (k : versions.Version) (val : String) (v : versions.Version) :
    v ∈ (versions.mapSet m k val).map Prod.fst ↔
      v ∈ m.map Prod.fst ∨ v = k := by
  cases hany : m.any (fun kv => kv.1 == k) with
  | true =>
    rw [mapSet_map_fst_replace m k val hany]
    have hk : k ∈ m.map Prod.fst := by
      obtain ⟨kv, hm, hkv⟩ := List.any_eq_true.mp hany
      exact List.mem_map.mpr ⟨kv, hm, eq_of_beq hkv⟩
    constructor
    · exact fun hv => Or.inl hv
    · rintro (hv | rfl)
      · exact hv
      · exact hk
  | false => simp [versions.mapSet, hany]

/-- Key set of the mapping-construction fold: the accumulator's keys plus
the launched entries' versions. -/
theorem foldl_mapSet_mem_fst :
    ∀ (l : List versions.versionPath)
      (acc : List (versions.Version × String)) (v : versions.Version),
      (v ∈ (l.foldl (fun m vp => versions.mapSet m vp.version vp.addr)
          acc).map Prod.fst) ↔
        v ∈ acc.map Prod.fst ∨ v ∈ l.map versions.versionPath.version := by
  intro l
  induction l with
  | nil => intro acc v; simp
  | cons vp rest ih =>
    intro acc v
    simp only [List.foldl_cons, List.map_cons, List.mem_cons]
    rw [ih, mapSet_mem_fst]
    tauto

/-- The mapping-construction fold over entries with pairwise distinct
versions appends one binding per entry. -/
theorem foldl_mapSet_nodup :
    ∀ (l : List versions.versionPath)
      (acc : List (versions.Version × String)),
      (l.map versions.versionPath.version).Nodup →
      (∀ vp ∈ l, ∀ kv ∈ acc, kv.1 ≠ vp.version) →
      l.foldl (fun m vp => versions.mapSet m vp.version vp.addr) acc =
        acc ++ l.map (fun vp => (vp.version, vp.addr)) := by
  intro l
  induction l with
  | nil => intro acc _ _; simp
  | cons vp rest ih =>
    intro acc hnd hdisj
    rw [List.map_cons] at hnd
    have hnd' := List.nodup_cons.mp hnd
    have hstep : versions.mapSet acc vp.version vp.addr =
        acc ++ [(vp.version, vp.addr)] :=
      mapSet_not_mem acc vp.version vp.addr
        (fun kv hm => hdisj vp (by simp) kv hm)
    simp only [List.foldl_cons, hstep]
    rw [ih (acc ++ [(vp.version, vp.addr)]) hnd'.2 ?_]
    · simp
    · intro vp' hm kv hkv
      rcases List.mem_append.mp hkv with hacc | hsing
      · exact hdisj vp' (by simp [hm]) kv hacc
      · have hkv1 : kv.1 = vp.version := by
          simp only [List.mem_singleton] at hsing
          rw [hsing]
        rw [hkv1]
        intro heq
        exact hnd'.1 (heq ▸ List.mem_map_of_mem versions.versionPath.version hm)

/-! ## Claim theorems -/

/-- **C1**: resolution round-trips both accepted wire formats.  For a payload
type whose values encode as JSON objects that use neither of the envelope's
member names (as the agent-baker request types do), whose codec round-trips,
and whose zero value is the only `IsZero` value involved: the encoding of a
bare non-zero payload resolves to `("latest", payload)`, and the encoding of
the envelope `{ABVersion: V, Req: payload}` with non-empty `V` resolves to
`(V, payload)`, both without error. -/
theorem C1_resolution_round_trip (T : Type) (decodeT : http.Json → Option T)
    (zeroT : T) (isZero : T → Bool) (encodeT : T → http.Json) (p : T)
    (V : String) (fields : List (String × http.Json))
    (henc : encodeT p = .obj fields)
    (hab : http.lookupField "ABVersion" fields = none)
    (hreq : http.lookupField "Req" fields = none)
    (hrt : decodeT (encodeT p) = some p)
    (hzz : isZero zeroT = true)
    (hnz : isZero p = false)
    (hV : V ≠ "") :
    http.versionedRequest T decodeT zeroT isZero (.json (encodeT p)) =
      .ok (versions.Latest, p) ∧
    http.versionedRequest T decodeT zeroT isZero
        (.json (http.encodeVersionedReq T encodeT ⟨V, p⟩)) = .ok (V, p) := by
  constructor
  · rw [henc] at hrt ⊢
    simp [http.versionedRequest, http.decodeVersionedReq, hab, hreq, hrt, hzz,
      hnz]
  · simp [http.versionedRequest, http.encodeVersionedReq,
      http.decodeVersionedReq, http.lookupField, http.decodeVersionString, hrt,
      hnz, hV]

/-- Witness for C1 at the router test's payload type and inputs. -/
theorem C1_witness :
    http.versionedRequest http.Config http.decodeConfig http.configZero
        http.configIsZero (.json (http.encodeConfig ⟨"test", "data"⟩)) =
      .ok (versions.Latest, ⟨"test", "data"⟩) ∧
    http.versionedRequest http.Config http.decodeConfig http.configZero
        http.configIsZero
        (.json (http.encodeVersionedReq http.Config http.encodeConfig
          ⟨"1.0.0", ⟨"test", "data"⟩⟩)) = .ok ("1.0.0", ⟨"test", "data"⟩) :=
  C1_resolution_round_trip http.Config http.decodeConfig http.configZero
    http.configIsZero http.encodeConfig ⟨"test", "data"⟩ "1.0.0"
    [("Type", .str "test"), ("Data", .str "data")] rfl rfl rfl rfl rfl rfl
    (by decide)

/-- **C2**: `versionedRequest` answers with a malformed-request error exactly
when one of the claimed conditions holds — the body is empty; it fails to
decode structurally (not valid JSON, or not decodable as the envelope, in
which case the bare-payload fallback is never attempted); the decoded
envelope has a zero `Req` and a non-empty `ABVersion`; the envelope's `Req`
is zero and the bare re-decode fails or is itself zero; or the envelope's
`Req` is non-zero while `ABVersion` is empty.  In particular the envelope
with only a non-empty version, the envelope with only a payload, the empty
body and the bytes `"{"` all fail. -/
theorem C2_resolution_error_iff (T : Type) (decodeT : http.Json → Option T)
    (zeroT : T) (isZero : T → Bool) (encodeT : T → http.Json) (p : T)
    (V : String) (b : http.Body)
    (hrt : decodeT (encodeT p) = some p)
    (hzz : isZero zeroT = true)
    (hnz : isZero p = false)
    (hV : V ≠ "") :
    ((∃ e, http.versionedRequest T decodeT zeroT isZero b = .error e) ↔
      (b = .empty ∨ b = .malformed ∨
        ∃ j, b = .json j ∧
          (http.decodeVersionedReq T decodeT zeroT j = none ∨
            ∃ v, http.decodeVersionedReq T decodeT zeroT j = some v ∧
              ((isZero v.Req = true ∧ v.ABVersion ≠ "") ∨
               (isZero v.Req = true ∧ (decodeT j = none ∨
                 ∃ c, decodeT j = some c ∧ isZero c = true)) ∨
               (isZero v.Req = false ∧ v.ABVersion = ""))))) ∧
    http.versionedRequest T decodeT zeroT isZero
        (.json (.obj [("ABVersion", .str V)])) =
      .error "must provide .Req if .ABVersion is set" ∧
    http.versionedRequest T decodeT zeroT isZero
        (.json (.obj [("Req", encodeT p)])) =
      .error "must provide a version" ∧
    http.versionedRequest T decodeT zeroT isZero .empty =
      .error "empty body" ∧
    http.versionedRequest T decodeT zeroT isZero .malformed =
      .error "could not unmarshal our the body content to VersionedReq" := by
  refine ⟨?_, ?_, ?_, rfl, rfl⟩
  · cases b with
    | empty => simp [http.versionedRequest]
    | malformed => simp [http.versionedRequest]
    | json j =>
      cases hd : http.decodeVersionedReq T decodeT zeroT j with
      | none => simp [http.versionedRequest, hd]
      | some v =>
        cases hz : isZero v.Req with
        | true =>
          by_cases hab : v.ABVersion = ""
          · cases hc : decodeT j with
            | none => simp [http.versionedRequest, hd, hz, hab, hc]
            | some c =>
              cases hzc : isZero c with
              | true => simp [http.versionedRequest, hd, hz, hab, hc, hzc]
              | false => simp [http.versionedRequest, hd, hz, hab, hc, hzc]
          · simp [http.versionedRequest, hd, hz, hab]
        | false =>
          by_cases hab : v.ABVersion = ""
          · simp [http.versionedRequest, hd, hz, hab]
          · simp [http.versionedRequest, hd, hz, hab]
  · simp [http.versionedRequest, http.decodeVersionedReq, http.lookupField,
      http.decodeVersionString, hzz, hV]
  · simp [http.versionedRequest, http.decodeVersionedReq, http.lookupField,
      hrt, hnz]

/-- Witness for C2 at the router test's payload type: the body
`{"Random": "data"}` (decodes, but both the envelope's `Req` and the bare
re-decode are zero), the version-only body, the payload-only body, the empty
body and the malformed body. -/
theorem C2_witness :
    ((∃ e, http.versionedRequest http.Config http.decodeConfig http.configZero
        http.configIsZero (.json (.obj [("Random", .str "data")])) =
          .error e) ↔
      ((http.Body.json (.obj [("Random", .str "data")])) = .empty ∨
        (http.Body.json (.obj [("Random", .str "data")])) = .malformed ∨
        ∃ j, (http.Body.json (.obj [("Random", .str "data")])) = .json j ∧
          (http.decodeVersionedReq http.Config http.decodeConfig
              http.configZero j = none ∨
            ∃ v, http.decodeVersionedReq http.Config http.decodeConfig
                http.configZero j = some v ∧
              ((http.configIsZero v.Req = true ∧ v.ABVersion ≠ "") ∨
               (http.configIsZero v.Req = true ∧
                 (http.decodeConfig j = none ∨
                   ∃ c, http.decodeConfig j = some c ∧
                     http.configIsZero c = true)) ∨
               (http.configIsZero v.Req = false ∧ v.ABVersion = ""))))) ∧
    http.versionedRequest http.Config http.decodeConfig http.configZero
        http.configIsZero (.json (.obj [("ABVersion", .str "1.0.0")])) =
      .error "must provide .Req if .ABVersion is set" ∧
    http.versionedRequest http.Config http.decodeConfig http.configZero
        http.configIsZero
        (.json (.obj [("Req", http.encodeConfig ⟨"test", "data"⟩)])) =
      .error "must provide a version" ∧
    http.versionedRequest http.Config http.decodeConfig http.configZero
        http.configIsZero .empty = .error "empty body" ∧
    http.versionedRequest http.Config http.decodeConfig http.configZero
        http.configIsZero .malformed =
      .error "could not unmarshal our the body content to VersionedReq" :=
  C2_resolution_error_iff http.Config http.decodeConfig http.configZero
    http.configIsZero http.encodeConfig ⟨"test", "data"⟩ "1.0.0"
    (.json (.obj [("Random", .str "data")])) rfl rfl rfl (by decide)

/-- **C4**: a version bound by no mapping entry looks up to the explicit
not-found signal `""` (never a fallback address), and a handler whose body
resolves to such a version answers with the version-not-found error while
issuing no outbound request at all (the outbound component is `none`). -/
theorem C4_unknown_version_no_forward (T : Type)
    (decodeT : http.Json → Option T) (zeroT : T) (isZero : T → Bool)
    (encodeT : T → http.Json) (m : versions.Mapping) (v : versions.Version)
    (p : T) (body : http.Body) (pathStr : String)
    (inHeaders : List (String × String))
    (backend : http.OutboundReq → http.AgentResp)
    (hnot : ∀ kv ∈ m.versions, kv.1 ≠ v)
    (hres : http.versionedRequest T decodeT zeroT isZero body = .ok (v, p)) :
    m.Base v = "" ∧
    http.bootstrapData T decodeT zeroT isZero encodeT m body pathStr inHeaders
        backend =
      (none, .error ("could not find agent baker version(" ++ v ++
        ") in our mapping")) := by
  have hbase : m.Base v = "" := mapGet_not_found v m.versions hnot
  refine ⟨hbase, ?_⟩
  simp [http.bootstrapData, hres, hbase]

/-- Witness for C4: the spec's end-to-end scenario C — an envelope pinning
the unregistered version `9.9.9` against a mapping holding `1.0.0` and
`1.1.0`. -/
theorem C4_witness :
    (versions.Mapping.mk [("1.0.0", "http://localhost:8080"),
        ("1.1.0", "http://localhost:8081")]).Base "9.9.9" = "" ∧
    http.bootstrapData http.Config http.decodeConfig http.configZero
        http.configIsZero http.encodeConfig
        (versions.Mapping.mk [("1.0.0", "http://localhost:8080"),
          ("1.1.0", "http://localhost:8081")])
        (.json (.obj [("ABVersion", .str "9.9.9"),
          ("Req", http.encodeConfig ⟨"x", "y"⟩)]))
        "/getnodebootstrapdata" [] (fun _ => ⟨200, "r", []⟩) =
      (none, .error ("could not find agent baker version(" ++ "9.9.9" ++
        ") in our mapping")) :=
  C4_unknown_version_no_forward http.Config http.decodeConfig http.configZero
    http.configIsZero http.encodeConfig
    (versions.Mapping.mk [("1.0.0", "http://localhost:8080"),
      ("1.1.0", "http://localhost:8081")]) "9.9.9" ⟨"x", "y"⟩
    (.json (.obj [("ABVersion", .str "9.9.9"),
      ("Req", http.encodeConfig ⟨"x", "y"⟩)]))
    "/getnodebootstrapdata" [] (fun _ => ⟨200, "r", []⟩) (by decide) rfl

/-- **C3** (code bug at the URL construction): at the mapped base
`"http://localhost:8080"` and inbound path `/getnodebootstrapdata`, the
forwarding step targets `path.Join(base, path)`, whose lexical cleaning
collapses the `//` of the scheme, yielding
`"http:/localhost:8080/getnodebootstrapdata"` — not the concatenation
`base + original-request-path` the claim states.  The remaining claimed
postconditions do hold at this input: the single outbound request carries
the re-serialized payload and the inbound headers unmodified, a non-200
backend status becomes an error carrying that status code, and on 200 the
backend's body is relayed unchanged. -/
theorem C3_url_join_bug :
    (http.sendToAgentBaker "/getnodebootstrapdata"
        [("Content-Type", "application/json")] "http://localhost:8080"
        (http.encodeConfig ⟨"x", "y"⟩)
        (fun _ => ⟨200, "backend-response", []⟩)).1 =
      ⟨"http:/localhost:8080/getnodebootstrapdata",
       [("Content-Type", "application/json")], http.encodeConfig ⟨"x", "y"⟩⟩ ∧
    "http://localhost:8080" ++ "/getnodebootstrapdata" =
      "http://localhost:8080/getnodebootstrapdata" ∧
    ("http:/localhost:8080/getnodebootstrapdata" : String) ≠
      "http://localhost:8080/getnodebootstrapdata" ∧
    (http.sendToAgentBaker "/getnodebootstrapdata"
        [("Content-Type", "application/json")] "http://localhost:8080"
        (http.encodeConfig ⟨"x", "y"⟩)
        (fun _ => ⟨200, "backend-response", []⟩)).2 = .ok "backend-response" ∧
    (http.sendToAgentBaker "/getnodebootstrapdata"
        [("Content-Type", "application/json")] "http://localhost:8080"
        (http.encodeConfig ⟨"x", "y"⟩)
        (fun _ => ⟨500, "oops", []⟩)).2 =
      .error ("the agent returned a non-200 status code: " ++
        versions.natDecStr 500) :=
  ⟨rfl, rfl, by decide, rfl, rfl⟩

/-- **C8** (code bug at the subprocess argument): launching the entry
`1.0.0` at allocated port `8080` starts the binary with the argument list
`["-port", "http://localhost:8080"]` — the recorded *address string*
(`vp.addr`), not the numeric local port value `"8080"` that the claim (and
the launch contract in the spec and the README) require. -/
theorem C8_port_argument_bug :
    versions.launchOne "/tmp" (fun _ => true) (fun _ => true) 8080
        ⟨"1.0.0", [0], ""⟩ =
      .ok (⟨"1.0.0", [0], "http://localhost:8080"⟩,
        ("/tmp/1.0.0", ["-port", "http://localhost:8080"])) ∧
    ("http://localhost:8080" : String) ≠ versions.natDecStr 8080 :=
  ⟨rfl, by decide⟩

/-- **C9** (code bug at version validation): `Version.validate` is a stub
that accepts every string, so discovery of a bundle whose directory is named
`"not!a!version"` — not a release tag and not `"latest"` — does not abort:
`extractBinaries` succeeds with the malformed entry included, and `New`
publishes a mapping containing it, contrary to the claim (and to the README,
which says a badly named directory makes the binary panic on start). -/
theorem C9_validation_stub_accepts_invalid :
    versions.Version.validate "not!a!version" = none ∧
    versions.extractBinaries
        ⟨some [⟨"not!a!version", true⟩], [("not!a!version/agentbaker", [0])]⟩ =
      .ok [⟨"not!a!version", [0], ""⟩] ∧
    (versions.New
        ⟨some [⟨"not!a!version", true⟩], [("not!a!version/agentbaker", [0])]⟩
        "/tmp" (fun k => k) (fun _ => true) (fun _ => true)).2 = none ∧
    (versions.New
        ⟨some [⟨"not!a!version", true⟩], [("not!a!version/agentbaker", [0])]⟩
        "/tmp" (fun k => k) (fun _ => true) (fun _ => true)).1.Base
        "not!a!version" = "http://localhost:8080" :=
  ⟨rfl, rfl, rfl, rfl⟩

/-- **C5**: with `N` asset entries bearing `N` pairwise distinct versions
and every launch succeeding, `New` reports no error and publishes a mapping
with exactly `N` entries, one per discovered version in listing order; each
entry's address is the address of a distinct allocated port, and the
addresses are pairwise distinct for *every* injective allocation order —
i.e. regardless of the interleaving of the parallel launches, because each
call to the shared atomic counter returns a distinct value. -/
theorem C5_launch_complete_distinct (fs : versions.BinFS) (tmpdir : String)
    (alloc : Nat → Nat) (entries : List String) (bins : String → List Nat)
    (hentries : fs.entries = some (entries.map (fun n => ⟨n, true⟩)))
    (hfiles : ∀ n ∈ entries, fs.readFile (n ++ "/agentbaker") = some (bins n))
    (hnodup : entries.Nodup)
    (hinj : Function.Injective alloc) :
    (versions.New fs tmpdir alloc (fun _ => true) (fun _ => true)).2 =
      none ∧
    (versions.New fs tmpdir alloc (fun _ => true)
        (fun _ => true)).1.versions.map Prod.fst = entries ∧
    (versions.New fs tmpdir alloc (fun _ => true)
        (fun _ => true)).1.versions.length = entries.length ∧
    (versions.New fs tmpdir alloc (fun _ => true)
        (fun _ => true)).1.versions.map Prod.snd =
      (List.range' 0 entries.length).map
        (fun k => versions.addrOf (versions.portAlloc (alloc k))) ∧
    ((versions.New fs tmpdir alloc (fun _ => true)
        (fun _ => true)).1.versions.map Prod.snd).Nodup := by
  have hfiles' : ∀ d ∈ entries.map (fun n => (⟨n, true⟩ : versions.DirEntry)),
      d.isDir = true →
      fs.readFile (d.name ++ "/agentbaker") = some (bins d.name) := by
    intro d hd _
    obtain ⟨n, hn, rfl⟩ := List.mem_map.mp hd
    exact hfiles n hn
  have hex : versions.extractBinaries fs =
      .ok (entries.map (fun n => ⟨n, bins n, ""⟩)) := by
    unfold versions.extractBinaries
    rw [hentries]
    show versions.extractGo fs (entries.map (fun n => ⟨n, true⟩)) = _
    rw [extractGo_ok fs bins _ hfiles', dirNames_all_dirs]
  have hvl : (entries.map
      (fun n => (⟨n, bins n, ""⟩ : versions.versionPath))).map
      versions.versionPath.version = entries := by
    have hid : (versions.versionPath.version ∘ fun n =>
        ({ version := n, bin := bins n, addr := "" } :
          versions.versionPath)) = id := rfl
    rw [List.map_map, hid, List.map_id]
  have hlnd : ((versions.launched alloc 0 (entries.map
      (fun n => ⟨n, bins n, ""⟩))).map
      versions.versionPath.version).Nodup := by
    rw [launched_map_version, hvl]
    exact hnodup
  have hNew : versions.New fs tmpdir alloc (fun _ => true) (fun _ => true) =
      (⟨(versions.launched alloc 0 (entries.map
          (fun n => ⟨n, bins n, ""⟩))).map
          (fun vp => (vp.version, vp.addr))⟩, none) := by
    unfold versions.New
    rw [hex]
    simp only [versions.spawnVersions, spawnGo_ok]
    rw [foldl_mapSet_nodup _ [] hlnd (by simp)]
    simp
  rw [hNew]
  refine ⟨rfl, ?_, ?_, ?_, ?_⟩
  · simp only [List.map_map]
    have : (Prod.fst ∘ fun vp : versions.versionPath =>
        (vp.version, vp.addr)) = versions.versionPath.version := rfl
    rw [this, launched_map_version, hvl]
  · simp only [List.length_map, launched_length, List.length_map]
  · simp only [List.map_map]
    have : (Prod.snd ∘ fun vp : versions.versionPath =>
        (vp.version, vp.addr)) = versions.versionPath.addr := rfl
    rw [this, launched_map_addr]
    simp [launched_length]
  · simp only [List.map_map]
    have : (Prod.snd ∘ fun vp : versions.versionPath =>
        (vp.version, vp.addr)) = versions.versionPath.addr := rfl
    rw [this, launched_map_addr]
    have hcomp : Function.Injective
        (fun k => versions.addrOf (versions.portAlloc (alloc k))) := by
      intro a b h
      have h1 := addrOf_injective h
      have h2 : alloc a = alloc b := by
        unfold versions.portAlloc at h1
        omega
      exact hinj h2
    exact (List.nodup_range' _ _).map hcomp

/-- Witness for C5: two entries `1.0.0`, `1.1.0`, identity allocation
order. -/
theorem C5_witness :
    (versions.New ⟨some [⟨"1.0.0", true⟩, ⟨"1.1.0", true⟩],
        [("1.0.0/agentbaker", [7]), ("1.1.0/agentbaker", [7])]⟩ "/tmp"
        (fun k => k) (fun _ => true) (fun _ => true)).2 = none ∧
    (versions.New ⟨some [⟨"1.0.0", true⟩, ⟨"1.1.0", true⟩],
        [("1.0.0/agentbaker", [7]), ("1.1.0/agentbaker", [7])]⟩ "/tmp"
        (fun k => k) (fun _ => true) (fun _ => true)).1.versions.map
        Prod.fst = ["1.0.0", "1.1.0"] ∧
    (versions.New ⟨some [⟨"1.0.0", true⟩, ⟨"1.1.0", true⟩],
        [("1.0.0/agentbaker", [7]), ("1.1.0/agentbaker", [7])]⟩ "/tmp"
        (fun k => k) (fun _ => true) (fun _ => true)).1.versions.length =
      (["1.0.0", "1.1.0"] : List String).length ∧
    (versions.New ⟨some [⟨"1.0.0", true⟩, ⟨"1.1.0", true⟩],
        [("1.0.0/agentbaker", [7]), ("1.1.0/agentbaker", [7])]⟩ "/tmp"
        (fun k => k) (fun _ => true) (fun _ => true)).1.versions.map
        Prod.snd =
      (List.range' 0 (["1.0.0", "1.1.0"] : List String).length).map
        (fun k => versions.addrOf (versions.portAlloc ((fun k => k) k))) ∧
    ((versions.New ⟨some [⟨"1.0.0", true⟩, ⟨"1.1.0", true⟩],
        [("1.0.0/agentbaker", [7]), ("1.1.0/agentbaker", [7])]⟩ "/tmp"
        (fun k => k) (fun _ => true) (fun _ => true)).1.versions.map
        Prod.snd).Nodup :=
  C5_launch_complete_distinct
    ⟨some [⟨"1.0.0", true⟩, ⟨"1.1.0", true⟩],
      [("1.0.0/agentbaker", [7]), ("1.1.0/agentbaker", [7])]⟩ "/tmp"
    (fun k => k) ["1.0.0", "1.1.0"] (fun _ => [7]) rfl (by decide)
    (by decide) (fun _ _ h => h)

/-- A launch phase containing a failing entry fails as a whole. -/
theorem spawnGo_err (tmpdir : String) (alloc : Nat → Nat)
    (writeOk startOk : versions.versionPath → Bool) :
    ∀ (l : List versions.versionPath) (i : Nat),
      (∃ vp ∈ l, writeOk vp = false ∨ startOk vp = false) →
      ∃ e, versions.spawnGo tmpdir alloc writeOk startOk i l = .error e := by
  intro l
  induction l with
  | nil => intro i h; simp at h
  | cons vp rest ih =>
    intro i h
    by_cases hw : writeOk vp = false
    · exact ⟨"could not write agentbaker binary file(" ++ vp.version ++ ")",
        by simp [versions.spawnGo, versions.launchOne, hw]⟩
    · have hw' : writeOk vp = true := by revert hw; cases writeOk vp <;> simp
      by_cases hs : startOk vp = false
      · exact ⟨"could not start agentbaker binary(" ++ vp.version ++ ")",
          by simp [versions.spawnGo, versions.launchOne, hw', hs]⟩
      · have hs' : startOk vp = true := by
          revert hs; cases startOk vp <;> simp
        obtain ⟨vp', hm, hf⟩ := h
        have hm' : vp' ∈ rest := by
          rcases List.mem_cons.mp hm with rfl | h'
          · rcases hf with h1 | h1
            · exact absurd h1 hw
            · exact absurd h1 hs
          · exact h'
        obtain ⟨e, he⟩ := ih (i + 1) ⟨vp', hm', hf⟩
        exact ⟨e,
          by simp [versions.spawnGo, versions.launchOne, hw', hs', he]⟩

/-- **C6**: if the launch of any single extracted entry fails (payload write
failure or subprocess start failure), `New` reports an error and the
mapping it returns alongside holds no entries — never a partial mapping of
the entries that did launch. -/
theorem C6_launch_atomicity (fs : versions.BinFS) (tmpdir : String)
    (alloc : Nat → Nat) (writeOk startOk : versions.versionPath → Bool)
    (vps : List versions.versionPath)
    (hex : versions.extractBinaries fs = .ok vps)
    (hfail : ∃ vp ∈ vps, writeOk vp = false ∨ startOk vp = false) :
    (versions.New fs tmpdir alloc writeOk startOk).1.versions = [] ∧
    (versions.New fs tmpdir alloc writeOk startOk).2.isSome = true := by
  obtain ⟨e, he⟩ := spawnGo_err tmpdir alloc writeOk startOk vps 0 hfail
  unfold versions.New
  rw [hex]
  simp [versions.spawnVersions, he]

/-- Witness for C6: two extracted entries, the second one's payload write
fails. -/
theorem C6_witness :
    (versions.New ⟨some [⟨"1.0.0", true⟩, ⟨"1.1.0", true⟩],
        [("1.0.0/agentbaker", [7]), ("1.1.0/agentbaker", [7])]⟩ "/tmp"
        (fun k => k) (fun vp => vp.version != "1.1.0")
        (fun _ => true)).1.versions = [] ∧
    (versions.New ⟨some [⟨"1.0.0", true⟩, ⟨"1.1.0", true⟩],
        [("1.0.0/agentbaker", [7]), ("1.1.0/agentbaker", [7])]⟩ "/tmp"
        (fun k => k) (fun vp => vp.version != "1.1.0")
        (fun _ => true)).2.isSome = true :=
  C6_launch_atomicity
    ⟨some [⟨"1.0.0", true⟩, ⟨"1.1.0", true⟩],
      [("1.0.0/agentbaker", [7]), ("1.1.0/agentbaker", [7])]⟩ "/tmp"
    (fun k => k) (fun vp => vp.version != "1.1.0") (fun _ => true)
    [⟨"1.0.0", [7], ""⟩, ⟨"1.1.0", [7], ""⟩] rfl
    ⟨⟨"1.1.0", [7], ""⟩, by decide, Or.inl (by decide)⟩

/-- **C7**: the key set of the mapping `New` publishes is exactly the set of
directory names discovered in the bundle; nothing ever inserts a synthesized
`"latest"` key, so when no bundle directory is literally named `"latest"`, a
lookup of `"latest"` (the version every bare request resolves to) returns
the not-found signal `""`. -/
theorem C7_no_synthesized_latest (fs : versions.BinFS) (tmpdir : String)
    (alloc : Nat → Nat) (ds : List versions.DirEntry)
    (bins : String → List Nat) (v : versions.Version)
    (hentries : fs.entries = some ds)
    (hfiles : ∀ d ∈ ds, d.isDir = true →
      fs.readFile (d.name ++ "/agentbaker") = some (bins d.name))
    (hlatest : "latest" ∉ versions.dirNames ds) :
    ((v ∈ (versions.New fs tmpdir alloc (fun _ => true)
        (fun _ => true)).1.versions.map Prod.fst) ↔
      v ∈ versions.dirNames ds) ∧
    (versions.New fs tmpdir alloc (fun _ => true)
        (fun _ => true)).1.Base versions.Latest = "" := by
  have hex : versions.extractBinaries fs =
      .ok ((versions.dirNames ds).map (fun n => ⟨n, bins n, ""⟩)) := by
    unfold versions.extractBinaries
    rw [hentries]
    exact extractGo_ok fs bins ds hfiles
  have hNew : versions.New fs tmpdir alloc (fun _ => true) (fun _ => true) =
      (⟨(versions.launched alloc 0 ((versions.dirNames ds).map
          (fun n => ⟨n, bins n, ""⟩))).foldl
          (fun m vp => versions.mapSet m vp.version vp.addr) []⟩, none) := by
    unfold versions.New
    rw [hex]
    simp only [versions.spawnVersions, spawnGo_ok]
  have hkeys : ∀ w : versions.Version,
      (w ∈ (versions.New fs tmpdir alloc (fun _ => true)
        (fun _ => true)).1.versions.map Prod.fst) ↔
      w ∈ versions.dirNames ds := by
    intro w
    rw [hNew]
    simp only []
    rw [foldl_mapSet_mem_fst, launched_map_version, List.map_map]
    simp
  refine ⟨hkeys v, ?_⟩
  have hno : ∀ kv ∈ (versions.New fs tmpdir alloc (fun _ => true)
      (fun _ => true)).1.versions, kv.1 ≠ versions.Latest := by
    intro kv hm heq
    exact hlatest ((hkeys "latest").mp
      (List.mem_map.mpr ⟨kv, hm, heq⟩))
  exact mapGet_not_found versions.Latest _ hno

/-- Witness for C7: a bundle listing a non-directory entry and the
directories `1.0.0`, `1.1.0` (none named `latest`), probed at the key
`1.0.0`. -/
theorem C7_witness :
    ((("1.0.0" : String) ∈ (versions.New
        ⟨some [⟨"README.md", false⟩, ⟨"1.0.0", true⟩, ⟨"1.1.0", true⟩],
          [("1.0.0/agentbaker", [7]), ("1.1.0/agentbaker", [7])]⟩ "/tmp"
        (fun k => k) (fun _ => true) (fun _ => true)).1.versions.map
        Prod.fst) ↔
      "1.0.0" ∈ versions.dirNames
        [⟨"README.md", false⟩, ⟨"1.0.0", true⟩, ⟨"1.1.0", true⟩]) ∧
    (versions.New
        ⟨some [⟨"README.md", false⟩, ⟨"1.0.0", true⟩, ⟨"1.1.0", true⟩],
          [("1.0.0/agentbaker", [7]), ("1.1.0/agentbaker", [7])]⟩ "/tmp"
        (fun k => k) (fun _ => true) (fun _ => true)).1.Base
        versions.Latest = "" :=
  C7_no_synthesized_latest
    ⟨some [⟨"README.md", false⟩, ⟨"1.0.0", true⟩, ⟨"1.1.0", true⟩],
      [("1.0.0/agentbaker", [7]), ("1.1.0/agentbaker", [7])]⟩ "/tmp"
    (fun k => k) [⟨"README.md", false⟩, ⟨"1.0.0", true⟩, ⟨"1.1.0", true⟩]
    (fun _ => [7]) "1.0.0" rfl (by decide) (by decide)

/-- **C10**: the `k`-th port allocation (counting from zero, in allocation
order) returns exactly `8080 + k`; in particular the first launched instance
is assigned port `8080` and its recorded address is
`"http://localhost:8080"`, while the router's own default listen address is
`"localhost:8080"` — the very same port. -/
theorem C10_sequential_ports_from_8080 (k : Nat) :
    versions.portAlloc k = 8080 + k ∧
    versions.portAlloc 0 = 8080 ∧
    versions.addrOf (versions.portAlloc 0) = "http://localhost:8080" ∧
    defaultAddr = "localhost:" ++ versions.natDecStr (versions.portAlloc 0) := by
  refine ⟨?_, rfl, rfl, rfl⟩
  unfold versions.portAlloc
  omega

/-- Witness for C10 at allocation rank `5`. -/
theorem C10_witness :
    versions.portAlloc 5 = 8080 + 5 ∧
    versions.portAlloc 0 = 8080 ∧
    versions.addrOf (versions.portAlloc 0) = "http://localhost:8080" ∧
    defaultAddr = "localhost:" ++ versions.natDecStr (versions.portAlloc 0) :=
  C10_sequential_ports_from_8080 5

end BakedBaker
